import Mathlib

/-!
Shallow embedding of the FUSE connection core (`connection.go`) and of the
`forgetfs` sample file system (`samples/forgetfs/forget_fs.go`).

The connection state carries the `cancelFuncs` registry (an association list
from kernel "unique" request ID to a cancellation-trigger identifier, mirroring
the Go `map[uint64]func()`), and an event trace recording the observable
effects: registry inserts and removals, trigger invocations, log lines, writes
to the kernel channel, and frame destruction.  Go panics are modelled as
`Except.error`.
-/

set_option maxHeartbeats 1000000

namespace Fuse

/-- Modelled from the spec: the integer opcode tags for `forget`, `statfs` and
`interrupt` come from the `internal/fusekernel` package, which is not part of
the sources here; the values follow the Linux FUSE protocol
(`FUSE_FORGET = 2`, `FUSE_STATFS = 17`, `FUSE_INTERRUPT = 36`).  Only their
distinctness matters to the connection core. -/
def opForget : Nat := 2

/-- Linux FUSE opcode `FUSE_STATFS`. -/
def opStatfs : Nat := 17

/-- Linux FUSE opcode `FUSE_INTERRUPT`. -/
def opInterrupt : Nat := 36

/-- Linux FUSE opcode `FUSE_LOOKUP`, used for concrete examples of an
ordinary (non-internal) opcode. -/
def opLookup : Nat := 1

/-- One observable effect of the connection core. -/
inductive Event where
  /-- `recordCancelFunc` inserted `unique ↦ trig` into the registry. -/
  | record (unique trig : Nat)
  /-- The cancellation trigger `trig` (a `context.CancelFunc`) was invoked. -/
  | fire (trig : Nat)
  /-- The registry entry for `unique` was deleted. -/
  | remove (unique : Nat)
  /-- A line was sent to the debug logger. -/
  | logDebug (msg : String)
  /-- A line was sent to the error logger. -/
  | logError (msg : String)
  /-- `WriteToKernel` was called with `replyMsg`; `opErr` is the user error the
  reply encodes (`nil` in Go = `none`). -/
  | write (replyMsg : List Nat) (opErr : Option String)
  /-- `m.Destroy()` ran for the frame with the given `unique`. -/
  | destroy (unique : Nat)
  deriving DecidableEq

/-- The state of a `Connection`: the `cancelFuncs` registry (as an association
list with the most recent insert at the head), a counter allocating fresh
trigger identifiers (standing for the distinct `context.CancelFunc` values
produced by `context.WithCancel`), the `nextOpID` logging counter (a `uint32`
in Go), the presence of the two optional loggers, and the event trace. -/
structure ConnState where
  cancelFuncs : List (Nat × Nat)
  nextTrigger : Nat
  nextOpID : Nat
  debugLogging : Bool
  errorLogging : Bool
  trace : List Event
  deriving DecidableEq

/-- Go map read `c.cancelFuncs[fuseID]`. -/
def lookupCF (u : Nat) : List (Nat × Nat) → Option Nat
  | [] => none
  | (k, v) :: rest => if k = u then some v else lookupCF u rest

/-- Go map delete `delete(c.cancelFuncs, fuseID)` (keys are unique, so
dropping every pair with key `u` removes exactly the one entry). -/
def removeCF (u : Nat) : List (Nat × Nat) → List (Nat × Nat)
  | [] => []
  | (k, v) :: rest =>
    if k = u then removeCF u rest else (k, v) :: removeCF u rest

/-- How many registry entries carry key `u`. -/
def countKey (u : Nat) : List (Nat × Nat) → Nat
  | [] => 0
  | (k, _) :: rest => (if k = u then 1 else 0) + countKey u rest

/-- `Connection.recordCancelFunc`: insert `fuseID ↦ trig`, panicking on a
duplicate key. -/
def recordCancelFunc (s : ConnState) (fuseID trig : Nat) :
    Except String ConnState :=
  if (lookupCF fuseID s.cancelFuncs).isSome then
    .error ("Already have cancel func for request " ++ toString fuseID)
  else
    .ok { s with cancelFuncs := (fuseID, trig) :: s.cancelFuncs,
                 trace := s.trace ++ [.record fuseID trig] }

/-- The context handed to an op: either the connection's parent context
unchanged, or a cancellable child context whose cancel function is the
trigger `trig`. -/
inductive Ctx where
  | parent
  | cancellable (trig : Nat)
  deriving DecidableEq

/-- `Connection.beginOp`: for every opcode except `forget`, derive a
cancellable context from the parent context and record its cancel function
under the request's `unique` ID; for `forget`, pass the parent context
through and record nothing. -/
def beginOp (s : ConnState) (opCode fuseID : Nat) :
    Except String (Ctx × ConnState) :=
  if opCode ≠ opForget then
    match recordCancelFunc { s with nextTrigger := s.nextTrigger + 1 }
        fuseID s.nextTrigger with
    | .error e => .error e
    | .ok s' => .ok (.cancellable s.nextTrigger, s')
  else
    .ok (.parent, s)

/-- `Connection.finishOp`: for every opcode except `forget`, look up the
cancel function (panicking if absent), invoke it, and delete the entry; for
`forget`, do nothing. -/
def finishOp (s : ConnState) (opCode fuseID : Nat) : Except String ConnState :=
  if opCode ≠ opForget then
    match lookupCF fuseID s.cancelFuncs with
    | none => .error ("Unknown request ID in finishOp: " ++ toString fuseID)
    | some trig =>
      .ok { s with cancelFuncs := removeCF fuseID s.cancelFuncs,
                   trace := s.trace ++ [.fire trig, .remove fuseID] }
  else
    .ok s

/-- `Connection.handleInterrupt`: look up the cancel function for `fuseID`;
if absent, return silently; if present, invoke it (note: the entry is not
removed). -/
def handleInterrupt (s : ConnState) (fuseID : Nat) : ConnState :=
  match lookupCF fuseID s.cancelFuncs with
  | none => s
  | some trig => { s with trace := s.trace ++ [.fire trig] }

/-- The two description strings a typed op (`fuseops.Op`) exposes to the
core's logging. -/
structure OpInfo where
  shortDesc : String
  debugString : String
  deriving DecidableEq

/-- The `sendReply` closure built per frame inside `Connection.ReadOp`.  It
captures the frame's header opcode `hdrOpcode` and unique ID `hdrUnique`; the
`fuseID` argument the caller passes is ignored by the Go code, which uses the
captured header instead.  Effects, in program order: `finishOp`, the debug log
line, the error log line, `WriteToKernel replyMsg`, and (deferred, so last)
`m.Destroy()`.  `writeErr` is the outcome of the external `WriteToKernel`
call; a failure is wrapped as `"WriteToKernel: …"` and returned. -/
def sendReply (s : ConnState) (hdrOpcode hdrUnique : Nat) (op : OpInfo)
    (fuseID : Nat) (replyMsg : List Nat) (opErr : Option String)
    (writeErr : Option String) : Except String (Option String × ConnState) :=
  match finishOp s hdrOpcode hdrUnique with
  | .error e => .error e
  | .ok s1 =>
    let dbg : List Event :=
      if s.debugLogging then
        match opErr with
        | none => [.logDebug ("-> OK: " ++ op.debugString)]
        | some e => [.logDebug ("-> error: " ++ e)]
      else []
    let errl : List Event :=
      if opErr.isSome && s.errorLogging then
        [.logError ("(" ++ op.shortDesc ++ ") error: " ++ opErr.getD "")]
      else []
    let s2 := { s1 with
      trace := s1.trace ++ dbg ++ errl ++
        [.write replyMsg opErr, .destroy hdrUnique] }
    match writeErr with
    | some e => .ok (some ("WriteToKernel: " ++ e), s2)
    | none => .ok (none, s2)

/-- A kernel frame together with the oracle data describing how the external
codec (`fuseops.Convert`) and kernel channel behave on it: `convertErr` is
`Convert`'s outcome, `op` the typed op's description strings, and — modelled
from the spec, since the `fuseops` package is not among the sources —
`interruptTarget` is the target unique an interrupt frame's payload carries,
and `statfsReply`/`statfsWriteErr` are the encoded reply bytes and the wire
outcome for the statfs auto-reply issued by `op.Respond(nil)`. -/
structure Frame where
  opcode : Nat
  unique : Nat
  payload : List Nat
  convertErr : Option String
  op : OpInfo
  interruptTarget : Nat
  statfsReply : List Nat
  statfsWriteErr : Option String
  deriving DecidableEq

/-- What one call of `Connection.ReadOp` produces for its caller. -/
inductive ReadResult where
  /-- A typed op surfaced to the caller, with its per-op context. -/
  | op (f : Frame) (ctx : Ctx)
  /-- A non-terminal error return (e.g. a wrapped `Convert` failure). -/
  | err (msg : String)
  /-- `ReadMessage` reported `io.EOF`: the kernel closed the connection. -/
  | eof
  deriving DecidableEq

/-- `Connection.ReadOp` over the remaining stream of kernel frames.  Per
frame: bump `nextOpID` (a `uint32`), run `beginOp`, run `Convert` (wrapping a
failure as `"fuseops.Convert: …"` and returning it with the stream position
preserved), log receipt, then: auto-reply and loop for `statfs`, call
`handleInterrupt` and loop for `interrupt`, and otherwise return the op. -/
def readOp : List Frame → ConnState →
    Except String (ReadResult × List Frame × ConnState)
  | [], s => .ok (.eof, [], s)
  | f :: rest, s =>
    match beginOp { s with nextOpID := (s.nextOpID + 1) % 2 ^ 32 }
        f.opcode f.unique with
    | .error e => .error e
    | .ok (ctx, s1) =>
      match f.convertErr with
      | some e => .ok (.err ("fuseops." ++ ("Convert: " ++ e)), rest, s1)
      | none =>
        let s2 :=
          if s1.debugLogging then
            { s1 with trace := s1.trace ++ [.logDebug ("<- " ++ f.op.shortDesc)] }
          else s1
        if f.opcode = opStatfs then
          match sendReply s2 f.opcode f.unique f.op f.unique f.statfsReply
              none f.statfsWriteErr with
          | .error e => .error e
          | .ok (_, s3) => readOp rest s3
        else if f.opcode = opInterrupt then
          readOp rest (handleInterrupt s2 f.interruptTarget)
        else
          .ok (.op f ctx, rest, s2)

/-- The `(replyMsg, opErr)` pairs passed to `WriteToKernel`, in order. -/
def writeEvents : List Event → List (List Nat × Option String)
  | [] => []
  | .write m e :: rest => (m, e) :: writeEvents rest
  | _ :: rest => writeEvents rest

/-- How many times the cancellation trigger `t` has been invoked. -/
def fireCount (t : Nat) : List Event → Nat
  | [] => 0
  | .fire t' :: rest => (if t' = t then 1 else 0) + fireCount t rest
  | _ :: rest => fireCount t rest

/-- Whether frame `f` occurs in the list of in-flight (delivered,
not-yet-replied) ops. -/
def memFrame (f : Frame) : List Frame → Bool
  | [] => false
  | g :: rest => g = f || memFrame f rest

/-- Remove one occurrence of frame `f` from the in-flight list (the user's
reply closure for that op has been invoked). -/
def eraseFrame (f : Frame) : List Frame → List Frame
  | [] => []
  | g :: rest => if g = f then rest else g :: eraseFrame f rest

/-- How many in-flight ops are non-`forget` and carry unique ID `u`. -/
def countPending (u : Nat) : List Frame → Nat
  | [] => 0
  | f :: rest =>
    (if f.opcode ≠ opForget ∧ f.unique = u then 1 else 0) + countPending u rest

/-- One step of an interleaving of the reader loop with user replies:
either the reader loop delivers a frame's op to the user (running `beginOp`
on the way, as `ReadOp` does before returning), or a user handler commits the
reply for a previously delivered op by invoking its `sendReply` closure, or
the reader loop processes an interrupt frame itself. -/
inductive Action where
  | deliver (f : Frame)
  | commit (f : Frame) (replyMsg : List Nat) (opErr writeErr : Option String)
  | interrupt (f : Frame)
  deriving DecidableEq

/-- Run a sequence of interleaved deliveries, reply commits and interrupt
frames, keeping the list of in-flight ops.  A commit of an op that is not in
flight (never delivered, or already committed) is an invalid schedule.  An
interrupt frame is handled as `ReadOp` handles it: `beginOp` runs
unconditionally for the frame's own unique before the type dispatch, then
`handleInterrupt` fires the target's trigger, the frame is not delivered,
and no reply closure (hence no `finishOp`) ever runs for it — its own
registry entry is never removed. -/
def runActions : List Action → ConnState → List Frame →
    Except String (ConnState × List Frame)
  | [], s, pending => .ok (s, pending)
  | .deliver f :: rest, s, pending =>
    match beginOp s f.opcode f.unique with
    | .error e => .error e
    | .ok (_, s') => runActions rest s' (f :: pending)
  | .commit f replyMsg opErr writeErr :: rest, s, pending =>
    if memFrame f pending then
      match sendReply s f.opcode f.unique f.op f.unique replyMsg opErr
          writeErr with
      | .error e => .error e
      | .ok (_, s') => runActions rest s' (eraseFrame f pending)
    else
      .error "commit of an op that is not in flight"
  | .interrupt f :: rest, s, pending =>
    match beginOp s f.opcode f.unique with
    | .error e => .error e
    | .ok (_, s') =>
      runActions rest (handleInterrupt s' f.interruptTarget) pending

/-- The registry/in-flight correspondence: every unique ID keys at most one
registry entry, and keys exactly as many entries as there are in-flight
non-`forget` ops bearing it. -/
def RegInv (cfs : List (Nat × Nat)) (pending : List Frame) : Prop :=
  ∀ u, countKey u cfs ≤ 1 ∧ countKey u cfs = countPending u pending

end Fuse

namespace ForgetFS

/-- The subset of `fuseops.InodeAttributes` the sample sets. -/
structure InodeAttributes where
  nlink : Nat
  mode : Nat
  deriving DecidableEq

/-- An inode of the forgetfs sample: attributes plus the current lookup
count (a Go `int`). -/
structure Inode where
  attributes : InodeAttributes
  lookupCount : Int
  deriving DecidableEq

/-- The mutable state of `fsImpl`: the inode index and the next inode ID to
issue. -/
structure FsImpl where
  inodes : List (Nat × Inode)
  nextInodeID : Nat
  deriving DecidableEq

/-- `fuseops.RootInodeID` is 1; the canned IDs follow by `iota`. -/
def cannedID_Root : Nat := 1

/-- The canned inode ID of the file "foo". -/
def cannedID_Foo : Nat := 2

/-- The canned inode ID of the directory "bar". -/
def cannedID_Bar : Nat := 3

/-- The first inode ID available for dynamically created inodes. -/
def cannedID_Next : Nat := 4

/-- `fsImpl.checkInvariants`: every inode has a non-negative lookup count,
and every issued inode ID is below `nextInodeID`. -/
def checkInvariants (fs : FsImpl) : Prop :=
  (∀ p ∈ fs.inodes, 0 ≤ p.2.lookupCount) ∧ ∀ p ∈ fs.inodes, p.1 < fs.nextInodeID

instance (fs : FsImpl) : Decidable (checkInvariants fs) := by
  unfold checkInvariants; infer_instance

/-- Go map read `fs.inodes[id]`. -/
def findInode (id : Nat) : List (Nat × Inode) → Option Inode
  | [] => none
  | (k, v) :: rest => if k = id then some v else findInode id rest

/-- `fsImpl.findInodeByID`: look the inode up, panicking if it is unknown or
already forgotten (non-positive lookup count). -/
def findInodeByID (fs : FsImpl) (id : Nat) : Except String Inode :=
  match findInode id fs.inodes with
  | none => .error ("Unknown inode: " ++ toString id)
  | some i =>
    if i.lookupCount ≤ 0 then .error ("Forgotten inode: " ++ toString id)
    else .ok i

/-- `child.lookupCount++` through the pointer held in the map. -/
def incLookupCount (id : Nat) : List (Nat × Inode) → List (Nat × Inode)
  | [] => []
  | (k, v) :: rest =>
    if k = id then (k, { v with lookupCount := v.lookupCount + 1 }) :: rest
    else (k, v) :: incLookupCount id rest

/-- The outcome of `LookUpInode` as seen by the kernel: a child entry, or the
user error `ENOENT`. -/
inductive LookUpResult where
  | entry (child : Nat) (attributes : InodeAttributes)
  | enoent
  deriving DecidableEq

/-- `fsImpl.LookUpInode`: check the parent exists and is not forgotten,
resolve the supported names under the root, bump the child's lookup count and
return its entry; unsupported names yield `ENOENT` without mutation. -/
def lookUpInode (fs : FsImpl) (parent : Nat) (name : String) :
    Except String (FsImpl × LookUpResult) :=
  match findInodeByID fs parent with
  | .error e => .error e
  | .ok _ =>
    let childID : Option Nat :=
      if parent = cannedID_Root ∧ name = "foo" then some cannedID_Foo
      else if parent = cannedID_Root ∧ name = "bar" then some cannedID_Bar
      else none
    match childID with
    | none => .ok (fs, .enoent)
    | some cid =>
      match findInodeByID fs cid with
      | .error e => .error e
      | .ok child =>
        .ok ({ fs with inodes := incLookupCount cid fs.inodes },
             .entry cid child.attributes)

/-- `fsImpl.GetInodeAttributes`: find the inode (panicking if unknown or
forgotten) and return its attributes; no mutation. -/
def getInodeAttributes (fs : FsImpl) (id : Nat) :
    Except String (FsImpl × InodeAttributes) :=
  match findInodeByID fs id with
  | .error e => .error e
  | .ok i => .ok (fs, i.attributes)

/-- A concrete forgetfs state for witnesses: the canned inodes of
`NewFileSystem`, with "foo" additionally holding one lookup reference so that
looking it up succeeds. -/
def fsEx : FsImpl :=
  { inodes :=
      [(cannedID_Root, { attributes := { nlink := 1, mode := 511 },
                         lookupCount := 1 }),
       (cannedID_Foo, { attributes := { nlink := 1, mode := 511 },
                        lookupCount := 1 }),
       (cannedID_Bar, { attributes := { nlink := 1, mode := 511 },
                        lookupCount := 0 })],
    nextInodeID := cannedID_Next }

end ForgetFS

namespace Fuse

/-- A freshly constructed connection state: empty registry, both loggers
absent, empty trace. -/
def s0 : ConnState :=
  { cancelFuncs := [], nextTrigger := 0, nextOpID := 0,
    debugLogging := false, errorLogging := false, trace := [] }

/-- Description strings of an example typed op. -/
def opInfoEx : OpInfo :=
  { shortDesc := "LookUpInode", debugString := "LookUpInode (example)" }

/-- An example `lookup` frame with unique ID `u` that converts successfully. -/
def fLookup (u : Nat) : Frame :=
  { opcode := opLookup, unique := u, payload := [], convertErr := none,
    op := opInfoEx, interruptTarget := 0, statfsReply := [],
    statfsWriteErr := none }

/-- An example `forget` frame with unique ID `u`. -/
def fForget (u : Nat) : Frame :=
  { fLookup u with opcode := opForget }

/-- An example `statfs` frame with unique ID `u`, whose auto-reply encodes to
the bytes `[1, 2]` and whose kernel write succeeds. -/
def fStatfs (u : Nat) : Frame :=
  { fLookup u with opcode := opStatfs, statfsReply := [1, 2] }

/-- An example `interrupt` frame with unique ID `u` targeting `target`. -/
def fInterrupt (u target : Nat) : Frame :=
  { fLookup u with opcode := opInterrupt, interruptTarget := target }

/-- An example frame on which `fuseops.Convert` fails with message "bad". -/
def fBadConvert (u : Nat) : Frame :=
  { fLookup u with convertErr := some "bad" }

end Fuse

namespace Fuse

/-! ### Helper lemmas about the registry representation -/

theorem lookupCF_none_iff (u : Nat) (l : List (Nat × Nat)) :
    lookupCF u l = none ↔ countKey u l = 0 := by
  induction l with
  | nil => simp [lookupCF, countKey]
  | cons p rest ih =>
    obtain ⟨k, v⟩ := p
    by_cases h : k = u <;> simp [lookupCF, countKey, h, ih]

theorem lookupCF_isSome_iff (u : Nat) (l : List (Nat × Nat)) :
    (lookupCF u l).isSome = true ↔ countKey u l ≠ 0 := by
  rw [Option.isSome_iff_ne_none, not_iff_not.symm]
  simp [lookupCF_none_iff]

theorem countKey_removeCF (u v : Nat) (l : List (Nat × Nat)) :
    countKey v (removeCF u l) = if v = u then 0 else countKey v l := by
  induction l with
  | nil => simp [removeCF, countKey]
  | cons p rest ih =>
    obtain ⟨k, w⟩ := p
    by_cases hk : k = u <;> by_cases hv : k = v <;>
      simp_all [removeCF, countKey]

theorem removeCF_eq_of_lookupCF_none (u : Nat) (l : List (Nat × Nat))
    (h : lookupCF u l = none) : removeCF u l = l := by
  induction l with
  | nil => rfl
  | cons p rest ih =>
    obtain ⟨k, v⟩ := p
    by_cases hk : k = u
    · simp [lookupCF, hk] at h
    · simp only [lookupCF, if_neg hk] at h
      simp [removeCF, hk, ih h]

theorem lookupCF_removeCF_self (u : Nat) (l : List (Nat × Nat)) :
    lookupCF u (removeCF u l) = none := by
  rw [lookupCF_none_iff, countKey_removeCF]
  simp

theorem eq_nil_of_countKey_zero (l : List (Nat × Nat))
    (h : ∀ u, countKey u l = 0) : l = [] := by
  cases l with
  | nil => rfl
  | cons p rest =>
    obtain ⟨k, v⟩ := p
    have := h k
    simp [countKey] at this

end Fuse

namespace Fuse

/-! ### Specification lemmas for the primitive operations -/

theorem recordCancelFunc_ok (s s' : ConnState) (u t : Nat)
    (h : recordCancelFunc s u t = .ok s') :
    lookupCF u s.cancelFuncs = none ∧
      s'.cancelFuncs = (u, t) :: s.cancelFuncs := by
  unfold recordCancelFunc at h
  by_cases hl : (lookupCF u s.cancelFuncs).isSome
  · simp [hl] at h
  · refine ⟨Option.not_isSome_iff_eq_none.mp hl, ?_⟩
    simp only [hl, Bool.false_eq_true, if_neg] at h
    cases h
    rfl

theorem beginOp_forget (s : ConnState) (u : Nat) :
    beginOp s opForget u = .ok (.parent, s) := by
  simp [beginOp]

theorem beginOp_ok_nonforget (s s' : ConnState) (oc u : Nat) (c : Ctx)
    (hoc : oc ≠ opForget) (h : beginOp s oc u = .ok (c, s')) :
    lookupCF u s.cancelFuncs = none ∧
      c = .cancellable s.nextTrigger ∧
      s'.cancelFuncs = (u, s.nextTrigger) :: s.cancelFuncs := by
  unfold beginOp at h
  rw [if_pos hoc] at h
  cases hr : recordCancelFunc { s with nextTrigger := s.nextTrigger + 1 }
      u s.nextTrigger with
  | error e => rw [hr] at h; cases h
  | ok s1 =>
    rw [hr] at h
    cases h
    have := recordCancelFunc_ok _ _ _ _ hr
    exact ⟨this.1, rfl, this.2⟩

theorem finishOp_forget (s : ConnState) (u : Nat) :
    finishOp s opForget u = .ok s := by
  simp [finishOp]

theorem finishOp_ok_nonforget (s s' : ConnState) (oc u : Nat)
    (hoc : oc ≠ opForget) (h : finishOp s oc u = .ok s') :
    ∃ t, lookupCF u s.cancelFuncs = some t ∧
      s'.cancelFuncs = removeCF u s.cancelFuncs ∧
      s'.trace = s.trace ++ [.fire t, .remove u] := by
  unfold finishOp at h
  rw [if_pos hoc] at h
  cases hl : lookupCF u s.cancelFuncs with
  | none => rw [hl] at h; cases h
  | some t =>
    rw [hl] at h
    cases h
    exact ⟨t, rfl, rfl, rfl⟩

theorem finishOp_error_iff (s : ConnState) (oc u : Nat) :
    (∃ e, finishOp s oc u = .error e) ↔
      oc ≠ opForget ∧ lookupCF u s.cancelFuncs = none := by
  unfold finishOp
  by_cases hoc : oc ≠ opForget
  · rw [if_pos hoc]
    cases hl : lookupCF u s.cancelFuncs <;> simp [hoc]
  · rw [if_neg hoc]
    simp [hoc]

theorem handleInterrupt_cancelFuncs (s : ConnState) (u : Nat) :
    (handleInterrupt s u).cancelFuncs = s.cancelFuncs := by
  unfold handleInterrupt
  cases lookupCF u s.cancelFuncs <;> rfl

/-- Everything a successful `sendReply` run guarantees: the underlying
`finishOp` succeeded, the registry is exactly `finishOp`'s, and the trace
gained (after `finishOp`'s events) only log lines, then the kernel write,
then the frame destruction. -/
theorem sendReply_spec (s s2 : ConnState) (oc u : Nat) (op : OpInfo)
    (fid : Nat) (msg : List Nat) (oe we r : Option String)
    (h : sendReply s oc u op fid msg oe we = .ok (r, s2)) :
    ∃ s1 mid, finishOp s oc u = .ok s1 ∧
      s2.cancelFuncs = s1.cancelFuncs ∧
      s2.trace = s1.trace ++ mid ++ [.write msg oe, .destroy u] ∧
      writeEvents mid = [] ∧ (∀ t, fireCount t mid = 0) := by
  unfold sendReply at h
  cases hf : finishOp s oc u with
  | error e => rw [hf] at h; cases h
  | ok s1 =>
    rw [hf] at h
    refine ⟨s1,
      (if s.debugLogging then
        (match oe with
         | none => [Event.logDebug ("-> OK: " ++ op.debugString)]
         | some e => [Event.logDebug ("-> error: " ++ e)])
       else []) ++
      (if oe.isSome && s.errorLogging then
        [Event.logError ("(" ++ op.shortDesc ++ ") error: " ++ oe.getD "")]
       else []), rfl, ?_, ?_, ?_, ?_⟩
    · cases we <;> cases h <;> rfl
    · cases we <;> cases h <;> simp [List.append_assoc]
    · by_cases hd : s.debugLogging <;> cases oe <;>
        by_cases he : s.errorLogging <;>
        simp [hd, he, writeEvents]
    · intro t
      by_cases hd : s.debugLogging <;> cases oe <;>
        by_cases he : s.errorLogging <;>
        simp [hd, he, fireCount]

end Fuse

namespace Fuse

/-! ### The registry/in-flight correspondence -/

theorem countPending_eraseFrame (u : Nat) (f : Frame) (l : List Frame)
    (h : memFrame f l = true) :
    countPending u (eraseFrame f l) +
      (if f.opcode ≠ opForget ∧ f.unique = u then 1 else 0) =
      countPending u l := by
  induction l with
  | nil => simp [memFrame] at h
  | cons g rest ih =>
    by_cases hg : g = f
    · subst hg
      simp only [eraseFrame, if_pos rfl, eq_self_iff_true, if_true,
        countPending]
      omega
    · have hm : memFrame f rest = true := by
        have : (decide (g = f) || memFrame f rest) = true := h
        simpa [hg] using this
      have hih := ih hm
      simp only [eraseFrame, if_neg hg, countPending]
      omega

theorem regInv_deliver (s s' : ConnState) (f : Frame) (c : Ctx)
    (pending : List Frame) (hinv : RegInv s.cancelFuncs pending)
    (h : beginOp s f.opcode f.unique = .ok (c, s')) :
    RegInv s'.cancelFuncs (f :: pending) := by
  by_cases hoc : f.opcode = opForget
  · rw [hoc, beginOp_forget] at h
    cases h
    intro u
    have hu := hinv u
    refine ⟨hu.1, ?_⟩
    simp only [countPending, hoc]
    simpa using hu.2
  · obtain ⟨hnone, _, hcf⟩ := beginOp_ok_nonforget _ _ _ _ _ hoc h
    intro u
    have h0 : countKey f.unique s.cancelFuncs = 0 :=
      (lookupCF_none_iff _ _).mp hnone
    obtain ⟨hu1, hu2⟩ := hinv u
    rw [hcf]
    simp only [countKey, countPending]
    have hcond : (if f.opcode ≠ opForget ∧ f.unique = u then 1 else 0)
        = (if f.unique = u then 1 else 0) := by simp [hoc]
    rw [hcond]
    by_cases huf : f.unique = u
    · subst huf
      simp only [eq_self_iff_true, if_true]
      constructor <;> omega
    · simp only [if_neg huf]
      constructor <;> omega

theorem regInv_commit (s s' : ConnState) (f : Frame) (pending : List Frame)
    (hinv : RegInv s.cancelFuncs pending) (hmem : memFrame f pending = true)
    (hf : finishOp s f.opcode f.unique = .ok s') :
    RegInv s'.cancelFuncs (eraseFrame f pending) := by
  by_cases hoc : f.opcode = opForget
  · rw [hoc, finishOp_forget] at hf
    cases hf
    intro u
    have hce := countPending_eraseFrame u f pending hmem
    have hu := hinv u
    simp only [hoc, ne_eq, not_true_eq_false, false_and, if_false,
      Nat.add_zero] at hce
    exact ⟨hu.1, by rw [hu.2, ← hce]⟩
  · obtain ⟨t, hsome, hcf, _⟩ := finishOp_ok_nonforget _ _ _ _ hoc hf
    intro u
    obtain ⟨hu1, hu2⟩ := hinv u
    have hck : countKey f.unique s.cancelFuncs ≠ 0 := by
      intro h0
      rw [(lookupCF_none_iff _ _).mpr h0] at hsome
      cases hsome
    have hce := countPending_eraseFrame u f pending hmem
    rw [hcf, countKey_removeCF]
    by_cases huf : u = f.unique
    · subst huf
      have hcond :
          (if f.opcode ≠ opForget ∧ f.unique = f.unique then 1 else 0) = 1 := by
        simp [hoc]
      rw [hcond] at hce
      simp only [eq_self_iff_true, if_true]
      constructor <;> omega
    · have hfu : ¬f.unique = u := fun h => huf h.symm
      have hcond :
          (if f.opcode ≠ opForget ∧ f.unique = u then 1 else 0) = 0 := by
        simp [hfu]
      rw [hcond] at hce
      simp only [if_neg huf]
      constructor <;> omega

theorem runActions_regInv (acts : List Action) :
    ∀ (s : ConnState) (pending : List Frame) (s' : ConnState)
      (pending' : List Frame),
      acts.all (fun a => match a with
        | .interrupt _ => false
        | _ => true) = true →
      RegInv s.cancelFuncs pending →
      runActions acts s pending = .ok (s', pending') →
      RegInv s'.cancelFuncs pending' := by
  induction acts with
  | nil =>
    intro s pending s' pending' hall hinv h
    simp only [runActions, Except.ok.injEq, Prod.mk.injEq] at h
    rw [← h.1, ← h.2]
    exact hinv
  | cons a rest ih =>
    intro s pending s' pending' hall hinv h
    simp only [List.all_cons, Bool.and_eq_true] at hall
    cases a with
    | deliver f =>
      simp only [runActions] at h
      cases hb : beginOp s f.opcode f.unique with
      | error e => rw [hb] at h; cases h
      | ok p =>
        obtain ⟨c, s1⟩ := p
        rw [hb] at h
        exact ih _ _ _ _ hall.2 (regInv_deliver _ _ _ _ _ hinv hb) h
    | commit f msg oe we =>
      simp only [runActions] at h
      by_cases hmem : memFrame f pending = true
      · rw [if_pos hmem] at h
        cases hsr : sendReply s f.opcode f.unique f.op f.unique msg oe we with
        | error e => rw [hsr] at h; cases h
        | ok p =>
          obtain ⟨r, s1⟩ := p
          rw [hsr] at h
          obtain ⟨sf, mid, hfo, hcfs, -, -, -⟩ :=
            sendReply_spec _ _ _ _ _ _ _ _ _ _ hsr
          have hri : RegInv s1.cancelFuncs (eraseFrame f pending) := by
            rw [hcfs]
            exact regInv_commit _ _ _ _ hinv hmem hfo
          exact ih _ _ _ _ hall.2 hri h
      · rw [if_neg hmem] at h
        cases h
    | interrupt f =>
      cases hall.1

end Fuse

namespace Fuse

theorem fireCount_append (t : Nat) (l1 l2 : List Event) :
    fireCount t (l1 ++ l2) = fireCount t l1 + fireCount t l2 := by
  induction l1 with
  | nil => simp [fireCount]
  | cons e rest ih => cases e <;> simp [fireCount, ih] <;> omega

theorem writeEvents_append (l1 l2 : List Event) :
    writeEvents (l1 ++ l2) = writeEvents l1 ++ writeEvents l2 := by
  induction l1 with
  | nil => simp [writeEvents]
  | cons e rest ih => cases e <;> simp [writeEvents, ih]

/-- C4: For every frame whose opcode is `forget`, `beginOp` inserts no
cancellation registry entry and hands back the parent context unchanged, and
`finishOp` (the reply closure's cleanup) performs no registry removal for it:
both leave the connection state exactly as it was. -/
theorem fuse_c4_forget_exemption :
    ∀ (s : ConnState) (u : Nat),
      beginOp s opForget u = .ok (.parent, s) ∧
        finishOp s opForget u = .ok s :=
  fun s u => ⟨beginOp_forget s u, finishOp_forget s u⟩

/-- C6: `recordCancelFunc` aborts (panics) if and only if the unique ID is
already present in the registry, and `finishOp` aborts if and only if the
opcode is not `forget` and the unique ID is absent; in every other case both
complete without panicking. -/
theorem fuse_c6_panic_conditions :
    ∀ (s : ConnState) (oc u t : Nat),
      ((∃ e, recordCancelFunc s u t = .error e) ↔
        (lookupCF u s.cancelFuncs).isSome = true) ∧
      ((∃ e, finishOp s oc u = .error e) ↔
        (oc ≠ opForget ∧ lookupCF u s.cancelFuncs = none)) := by
  intro s oc u t
  constructor
  · unfold recordCancelFunc
    by_cases hl : (lookupCF u s.cancelFuncs).isSome = true <;> simp [hl]
  · exact finishOp_error_iff s oc u

/-- C7: `handleInterrupt` for a unique ID with no registry entry (its reply
already committed) is a silent no-op: the state — registry, trace (so no
trigger fires and no reply is written) — is unchanged, and the function
returns normally rather than panicking. -/
theorem fuse_c7_late_interrupt_silent :
    ∀ (s : ConnState) (u : Nat),
      lookupCF u s.cancelFuncs = none → handleInterrupt s u = s := by
  intro s u h
  unfold handleInterrupt
  rw [h]

theorem fuse_c7_witness :
    lookupCF 4 s0.cancelFuncs = none ∧ handleInterrupt s0 4 = s0 :=
  ⟨rfl, fuse_c7_late_interrupt_silent s0 4 rfl⟩

/-- C9: the reply closure `sendReply` ignores its `fuseID` parameter
entirely — two invocations differing only in that argument produce the same
state change and the same result, because the closure reads the captured
frame header's opcode and unique instead. -/
theorem fuse_c9_fuseID_independent :
    ∀ (s : ConnState) (oc u : Nat) (op : OpInfo) (fid1 fid2 : Nat)
      (msg : List Nat) (oe we : Option String),
      sendReply s oc u op fid1 msg oe we =
        sendReply s oc u op fid2 msg oe we :=
  fun _ _ _ _ _ _ _ _ _ => rfl

end Fuse

namespace Fuse

theorem sendReply_ok_of_finishOp (s s1 : ConnState) (oc u : Nat)
    (op : OpInfo) (fid : Nat) (msg : List Nat) (oe we : Option String)
    (hf : finishOp s oc u = .ok s1) :
    ∃ r s2, sendReply s oc u op fid msg oe we = .ok (r, s2) := by
  unfold sendReply
  rw [hf]
  cases we <;> exact ⟨_, _, rfl⟩

theorem handleInterrupt_some (s : ConnState) (u t : Nat)
    (h : lookupCF u s.cancelFuncs = some t) :
    handleInterrupt s u = { s with trace := s.trace ++ [.fire t] } := by
  unfold handleInterrupt
  rw [h]

/-- C1 counterexample: the claim fails for a `forget` op whose unique ID has
been reused by a later non-`forget` op (the aggressive-reuse situation the
design explicitly supports, cf. spec scenario "Forget reuse").  Deliver
`forget unique=12`, then `lookup unique=12`, then run the forget op's reply
closure exactly once: the registry still holds an entry under unique 12. -/
theorem fuse_c1_counterexample :
    ((readOp [fForget 12, fLookup 12] s0).bind fun r1 =>
      (readOp r1.2.1 r1.2.2).bind fun r2 =>
      (sendReply r2.2.2 (fForget 12).opcode (fForget 12).unique
          (fForget 12).op 12 [] none none).map fun p =>
        (r1.1, r2.1, (lookupCF 12 p.2.cancelFuncs).isSome)) =
      .ok (.op (fForget 12) .parent, .op (fLookup 12) (.cancellable 0),
        true) := by
  rfl

/-- C1 (amended): after the reply closure of a non-`forget` op runs, the
registry holds no entry for its unique ID; the reply closure of a `forget` op
touches no registry state (so an entry inserted under the same unique by a
later op survives); and every completed interleaving of deliveries and reply
commits to the delivered ops — the claim's scope; interrupt frames are
excluded, since the reader loop registers an interrupt frame's own unique
and never removes it — that starts from an empty registry ends with an empty
registry. -/
theorem fuse_c1_registry_pairing_amended :
    (∀ (s s' : ConnState) (oc u : Nat) (op : OpInfo) (fid : Nat)
        (msg : List Nat) (oe we r : Option String),
      oc ≠ opForget →
      sendReply s oc u op fid msg oe we = .ok (r, s') →
      lookupCF u s'.cancelFuncs = none) ∧
    (∀ (s s' : ConnState) (u : Nat) (op : OpInfo) (fid : Nat)
        (msg : List Nat) (oe we r : Option String),
      sendReply s opForget u op fid msg oe we = .ok (r, s') →
      s'.cancelFuncs = s.cancelFuncs) ∧
    (∀ (acts : List Action) (s s' : ConnState) (pending' : List Frame),
      acts.all (fun a => match a with
        | .interrupt _ => false
        | _ => true) = true →
      s.cancelFuncs = [] →
      runActions acts s [] = .ok (s', pending') →
      pending' = [] →
      s'.cancelFuncs = []) := by
  refine ⟨?_, ?_, ?_⟩
  · intro s s' oc u op fid msg oe we r hoc h
    obtain ⟨s1, mid, hfo, hcfs, -, -, -⟩ :=
      sendReply_spec _ _ _ _ _ _ _ _ _ _ h
    obtain ⟨t, -, hrm, -⟩ := finishOp_ok_nonforget _ _ _ _ hoc hfo
    rw [hcfs, hrm]
    exact lookupCF_removeCF_self u s.cancelFuncs
  · intro s s' u op fid msg oe we r h
    obtain ⟨s1, mid, hfo, hcfs, -, -, -⟩ :=
      sendReply_spec _ _ _ _ _ _ _ _ _ _ h
    rw [finishOp_forget] at hfo
    cases hfo
    exact hcfs
  · intro acts s s' pending' hall hnil hrun hpend
    subst hpend
    have hinv : RegInv s.cancelFuncs [] := by
      intro u
      rw [hnil]
      exact ⟨by simp [countKey], by simp [countKey, countPending]⟩
    have hinv' := runActions_regInv acts s [] s' [] hall hinv hrun
    refine eq_nil_of_countKey_zero _ fun u => ?_
    have := (hinv' u).2
    simpa [countPending] using this

theorem fuse_c1_witness :
    ∃ s', runActions
        [.deliver (fLookup 7), .commit (fLookup 7) [5] none none] s0 [] =
        .ok (s', []) ∧
      s'.cancelFuncs = [] := by
  refine ⟨_, rfl, ?_⟩
  exact fuse_c1_registry_pairing_amended.2.2
    [.deliver (fLookup 7), .commit (fLookup 7) [5] none none] s0 _ [] rfl
    rfl rfl rfl

/-- C2: in every successful invocation of the reply closure for a non-`forget`
op, the removal of the op's unique ID from the registry happens before the
reply bytes are written to the kernel channel: the resulting trace factors as
`… ++ [remove u] ++ … ++ [write msg] ++ …`. -/
theorem fuse_c2_remove_before_write :
    ∀ (s s' : ConnState) (oc u : Nat) (op : OpInfo) (fid : Nat)
      (msg : List Nat) (oe we r : Option String),
      oc ≠ opForget →
      sendReply s oc u op fid msg oe we = .ok (r, s') →
      ∃ l1 l2 l3, s'.trace =
        l1 ++ [Event.remove u] ++ l2 ++ [Event.write msg oe] ++ l3 := by
  intro s s' oc u op fid msg oe we r hoc h
  obtain ⟨s1, mid, hfo, -, htr, -, -⟩ := sendReply_spec _ _ _ _ _ _ _ _ _ _ h
  obtain ⟨t, -, -, htr1⟩ := finishOp_ok_nonforget _ _ _ _ hoc hfo
  refine ⟨s.trace ++ [.fire t], mid, [.destroy u], ?_⟩
  rw [htr, htr1]
  simp [List.append_assoc]

theorem fuse_c2_witness :
    ∃ s', sendReply { s0 with cancelFuncs := [(7, 0)] } opLookup 7 opInfoEx 7
        [5] none none = .ok (none, s') ∧
      ∃ l1 l2 l3, s'.trace =
        l1 ++ [Event.remove 7] ++ l2 ++ [Event.write [5] none] ++ l3 := by
  refine ⟨_, rfl, ?_⟩
  exact fuse_c2_remove_before_write { s0 with cancelFuncs := [(7, 0)] } _
    opLookup 7 opInfoEx 7 [5] none none none (by decide) rfl

/-- C3 counterexample: a registry entry's trigger can fire twice — once by
the interrupt path and once more by the reply path — because
`handleInterrupt` invokes the cancel function without removing the entry, so
`finishOp` finds it again at reply commit and invokes it a second time.
Deliver `lookup unique=9`, process an interrupt frame (own unique 20)
targeting 9, then commit the reply: trigger 0 has fired twice. -/
theorem fuse_c3_counterexample :
    (runActions [.deliver (fLookup 9), .interrupt (fInterrupt 20 9),
        .commit (fLookup 9) [] none none] s0 []).map
      (fun p => fireCount 0 p.1.trace) = .ok 2 := by
  rfl

/-- C3 (amended): a live registry entry's trigger is fired exactly once by
the reply path when no interrupt intervenes; an interrupt arriving before the
reply commit fires it one additional time (the interrupt path does not remove
the entry), so an interrupted op's trigger is fired twice in total.  It is
never fired zero times on a committed op.  (The trigger is a
`context.CancelFunc`, for which the second invocation is a no-op at the
context level.) -/
theorem fuse_c3_trigger_fired_amended :
    ∀ (s : ConnState) (oc u t : Nat) (op : OpInfo) (fid : Nat)
      (msg : List Nat) (oe we : Option String),
      oc ≠ opForget →
      lookupCF u s.cancelFuncs = some t →
      (∃ r s2, sendReply s oc u op fid msg oe we = .ok (r, s2) ∧
        fireCount t s2.trace = fireCount t s.trace + 1 ∧
        lookupCF u s2.cancelFuncs = none) ∧
      (∃ r s2,
        sendReply (handleInterrupt s u) oc u op fid msg oe we = .ok (r, s2) ∧
        fireCount t s2.trace = fireCount t s.trace + 2 ∧
        lookupCF u s2.cancelFuncs = none) := by
  intro s oc u t op fid msg oe we hoc hsome
  have hfin : ∀ sx : ConnState, sx.cancelFuncs = s.cancelFuncs →
      finishOp sx oc u = .ok { sx with
        cancelFuncs := removeCF u sx.cancelFuncs,
        trace := sx.trace ++ [.fire t, .remove u] } := by
    intro sx hx
    unfold finishOp
    rw [if_pos hoc, hx, hsome]
  constructor
  · obtain ⟨r, s2, h2⟩ :=
      sendReply_ok_of_finishOp s _ oc u op fid msg oe we (hfin s rfl)
    refine ⟨r, s2, h2, ?_, ?_⟩
    · obtain ⟨s1, mid, hfo, -, htr, -, hfc⟩ :=
        sendReply_spec _ _ _ _ _ _ _ _ _ _ h2
      rw [hfin s rfl] at hfo
      cases hfo
      rw [htr]
      simp [fireCount_append, fireCount, hfc t]
    · obtain ⟨s1, mid, hfo, hcfs, -, -, -⟩ :=
        sendReply_spec _ _ _ _ _ _ _ _ _ _ h2
      rw [hfin s rfl] at hfo
      cases hfo
      rw [hcfs]
      exact lookupCF_removeCF_self u s.cancelFuncs
  · have hint := handleInterrupt_some s u t hsome
    have hcfs0 : (handleInterrupt s u).cancelFuncs = s.cancelFuncs :=
      handleInterrupt_cancelFuncs s u
    obtain ⟨r, s2, h2⟩ :=
      sendReply_ok_of_finishOp (handleInterrupt s u) _ oc u op fid msg oe we
        (hfin _ hcfs0)
    refine ⟨r, s2, h2, ?_, ?_⟩
    · obtain ⟨s1, mid, hfo, -, htr, -, hfc⟩ :=
        sendReply_spec _ _ _ _ _ _ _ _ _ _ h2
      rw [hfin _ hcfs0] at hfo
      cases hfo
      rw [htr]
      simp only [hint]
      simp [fireCount_append, fireCount, hfc t]
    · obtain ⟨s1, mid, hfo, hcfs, -, -, -⟩ :=
        sendReply_spec _ _ _ _ _ _ _ _ _ _ h2
      rw [hfin _ hcfs0] at hfo
      cases hfo
      rw [hcfs, hcfs0]
      exact lookupCF_removeCF_self u s.cancelFuncs

theorem fuse_c3_witness :
    opLookup ≠ opForget ∧
    lookupCF 9 ({ s0 with cancelFuncs := [(9, 0)] } : ConnState).cancelFuncs
      = some 0 ∧
    ((∃ r s2, sendReply { s0 with cancelFuncs := [(9, 0)] } opLookup 9
        opInfoEx 9 [] none none = .ok (r, s2) ∧
      fireCount 0 s2.trace =
        fireCount 0 ({ s0 with cancelFuncs := [(9, 0)] } : ConnState).trace
          + 1 ∧
      lookupCF 9 s2.cancelFuncs = none) ∧
    (∃ r s2, sendReply
        (handleInterrupt { s0 with cancelFuncs := [(9, 0)] } 9) opLookup 9
        opInfoEx 9 [] none none = .ok (r, s2) ∧
      fireCount 0 s2.trace =
        fireCount 0 ({ s0 with cancelFuncs := [(9, 0)] } : ConnState).trace
          + 2 ∧
      lookupCF 9 s2.cancelFuncs = none)) :=
  ⟨by decide, rfl,
    fuse_c3_trigger_fired_amended _ opLookup 9 0 opInfoEx 9 [] none none
      (by decide) rfl⟩

end Fuse

namespace Fuse

theorem beginOp_ok_of_none (s : ConnState) (oc u : Nat)
    (hoc : oc ≠ opForget) (hnone : lookupCF u s.cancelFuncs = none) :
    beginOp s oc u = .ok (.cancellable s.nextTrigger,
      { s with nextTrigger := s.nextTrigger + 1,
               cancelFuncs := (u, s.nextTrigger) :: s.cancelFuncs,
               trace := s.trace ++ [.record u s.nextTrigger] }) := by
  unfold beginOp recordCancelFunc
  rw [if_pos hoc]
  simp [hnone]

/-- C5: a frame with opcode `statfs` is never returned from `ReadOp`: the
core replies to it synchronously on the reader thread and continues with the
remaining frames, so `ReadOp` on `f :: rest` behaves exactly as `ReadOp` on
`rest` from a state whose registry is unchanged and to whose kernel-channel
write sequence exactly one reply — carrying no error — has been added. -/
theorem fuse_c5_statfs_autoreply :
    ∀ (f : Frame) (rest : List Frame) (s : ConnState),
      f.opcode = opStatfs →
      f.convertErr = none →
      lookupCF f.unique s.cancelFuncs = none →
      ∃ s', readOp (f :: rest) s = readOp rest s' ∧
        s'.cancelFuncs = s.cancelFuncs ∧
        writeEvents s'.trace = writeEvents s.trace ++ [(f.statfsReply, none)] := by
  intro f rest s hst hcv hnone
  have hnf : f.opcode ≠ opForget := by rw [hst]; decide
  have hb := beginOp_ok_of_none { s with nextOpID := (s.nextOpID + 1) % 2 ^ 32 }
    f.opcode f.unique hnf hnone
  have hrm : removeCF f.unique ((f.unique, s.nextTrigger) :: s.cancelFuncs) =
      s.cancelFuncs := by
    rw [removeCF, if_pos rfl]
    exact removeCF_eq_of_lookupCF_none _ _ hnone
  have hfin : ∀ x : ConnState,
      x.cancelFuncs = (f.unique, s.nextTrigger) :: s.cancelFuncs →
      finishOp x opStatfs f.unique = .ok { x with
        cancelFuncs := removeCF f.unique x.cancelFuncs,
        trace := x.trace ++ [.fire s.nextTrigger, .remove f.unique] } := by
    intro x hx
    unfold finishOp
    rw [if_pos (by decide : opStatfs ≠ opForget), hx]
    simp [lookupCF]
  rw [hst] at hb
  cases hd : s.debugLogging <;> cases hwe : f.statfsWriteErr <;>
  · rw [hd] at hb
    simp only [readOp, hcv, hst, hd, hwe, hb]
    simp only [eq_self_iff_true, if_true, Bool.false_eq_true, if_false]
    simp only [sendReply, hfin]
    simp only [Bool.false_eq_true, if_false, Bool.true_eq_false,
      Option.isSome_none, Bool.false_and, Bool.and_false, if_true,
      eq_self_iff_true, List.append_nil, List.nil_append]
    refine ⟨_, rfl, ?_, ?_⟩
    · simp [hrm]
    · simp [writeEvents_append, writeEvents]

end Fuse

namespace Fuse

theorem fuse_c5_witness :
    ∃ s', readOp [fStatfs 3] s0 = readOp [] s' ∧
      s'.cancelFuncs = s0.cancelFuncs ∧
      writeEvents s'.trace =
        writeEvents s0.trace ++ [((fStatfs 3).statfsReply, none)] :=
  fuse_c5_statfs_autoreply (fStatfs 3) [] s0 rfl rfl rfl

theorem readOp_delivers (g : Frame) (rest' : List Frame) (x : ConnState)
    (hc : g.convertErr = none) (hs : g.opcode ≠ opStatfs)
    (hi : g.opcode ≠ opInterrupt)
    (hn : lookupCF g.unique x.cancelFuncs = none) :
    ∃ c s'', readOp (g :: rest') x = .ok (.op g c, rest', s'') := by
  by_cases hoc : g.opcode = opForget
  · simp only [readOp, hoc, beginOp_forget, hc,
      if_neg (show ¬(opForget = opStatfs) by decide),
      if_neg (show ¬(opForget = opInterrupt) by decide)]
    exact ⟨.parent, _, rfl⟩
  · have hb := beginOp_ok_of_none
      { x with nextOpID := (x.nextOpID + 1) % 2 ^ 32 } g.opcode g.unique hoc hn
    simp only [readOp, hb, hc, if_neg hs, if_neg hi]
    exact ⟨.cancellable x.nextTrigger, _, rfl⟩

/-- C8: when `fuseops.Convert` fails on a frame, `ReadOp` returns the error
wrapped in the "Convert: " context (the full prefix is "fuseops.Convert: "),
the frame's reply closure is never invoked — the connection state has gained
only the `beginOp` registry insert, no trigger fire, no removal, no kernel
write and no frame destruction — and a subsequent `ReadOp` call still
delivers later successful frames. -/
theorem fuse_c8_convert_error :
    ∀ (f : Frame) (rest : List Frame) (s : ConnState) (e : String),
      f.convertErr = some e →
      lookupCF f.unique s.cancelFuncs = none →
      ∃ s', readOp (f :: rest) s =
          .ok (.err ("fuseops." ++ ("Convert: " ++ e)), rest, s') ∧
        s'.trace = s.trace ++
          (if f.opcode ≠ opForget
            then [Event.record f.unique s.nextTrigger] else []) ∧
        (∀ (g : Frame) (rest' : List Frame),
          g.convertErr = none → g.opcode ≠ opStatfs → g.opcode ≠ opInterrupt →
          lookupCF g.unique s'.cancelFuncs = none →
          ∃ c s'', readOp (g :: rest') s' = .ok (.op g c, rest', s'')) := by
  intro f rest s e hcv hnone
  by_cases hoc : f.opcode = opForget
  · simp only [readOp, hoc, beginOp_forget, hcv]
    refine ⟨_, rfl, ?_, ?_⟩
    · simp [hoc]
    · intro g rest' hc hs hi hn
      exact readOp_delivers g rest' _ hc hs hi hn
  · have hb := beginOp_ok_of_none
      { s with nextOpID := (s.nextOpID + 1) % 2 ^ 32 } f.opcode f.unique
      hoc hnone
    simp only [readOp, hb, hcv]
    refine ⟨_, rfl, ?_, ?_⟩
    · simp [hoc]
    · intro g rest' hc hs hi hn
      exact readOp_delivers g rest' _ hc hs hi hn

theorem fuse_c8_witness :
    (fBadConvert 5).convertErr = some "bad" ∧
    ∃ s', readOp [fBadConvert 5, fLookup 6] s0 =
        .ok (.err ("fuseops." ++ ("Convert: " ++ "bad")), [fLookup 6], s') ∧
      s'.trace = s0.trace ++
        (if (fBadConvert 5).opcode ≠ opForget
          then [Event.record (fBadConvert 5).unique s0.nextTrigger] else []) ∧
      (∀ (g : Frame) (rest' : List Frame),
        g.convertErr = none → g.opcode ≠ opStatfs → g.opcode ≠ opInterrupt →
        lookupCF g.unique s'.cancelFuncs = none →
        ∃ c s'', readOp (g :: rest') s' = .ok (.op g c, rest', s'')) :=
  ⟨rfl, fuse_c8_convert_error (fBadConvert 5) [fLookup 6] s0 "bad" rfl rfl⟩

end Fuse

namespace ForgetFS

theorem incLookupCount_mem (id : Nat) (l : List (Nat × Inode)) :
    ∀ q ∈ incLookupCount id l, ∃ p ∈ l, q.1 = p.1 ∧
      (q.2.lookupCount = p.2.lookupCount ∨
        q.2.lookupCount = p.2.lookupCount + 1) := by
  induction l with
  | nil => simp [incLookupCount]
  | cons hd rest ih =>
    obtain ⟨k, v⟩ := hd
    intro q hq
    by_cases hk : k = id
    · simp only [incLookupCount, if_pos hk, List.mem_cons] at hq
      rcases hq with hq | hq
      · subst hq
        exact ⟨(k, v), List.mem_cons_self _ _, rfl, Or.inr rfl⟩
      · exact ⟨q, List.mem_cons_of_mem _ hq, rfl, Or.inl rfl⟩
    · simp only [incLookupCount, if_neg hk, List.mem_cons] at hq
      rcases hq with hq | hq
      · subst hq
        exact ⟨(k, v), List.mem_cons_self _ _, rfl, Or.inl rfl⟩
      · obtain ⟨p', hp', h1, h2⟩ := ih q hq
        exact ⟨p', List.mem_cons_of_mem _ hp', h1, h2⟩

theorem checkInvariants_incLookupCount (fs : FsImpl) (id : Nat)
    (h : checkInvariants fs) :
    checkInvariants { fs with inodes := incLookupCount id fs.inodes } := by
  obtain ⟨h1, h2⟩ := h
  constructor
  · intro q hq
    obtain ⟨p, hp, -, hc⟩ := incLookupCount_mem id fs.inodes q hq
    have := h1 p hp
    rcases hc with hc | hc <;> omega
  · intro q hq
    obtain ⟨p, hp, hk, -⟩ := incLookupCount_mem id fs.inodes q hq
    have := h2 p hp
    simpa [hk] using this

/-- C10: in the forgetfs sample, `LookUpInode` and `GetInodeAttributes`
preserve the invariants of `fsImpl`: every inode in the map keeps a
non-negative lookup count, and every inode ID key stays strictly below
`nextInodeID`. -/
theorem forgetfs_c10_invariants_preserved :
    ∀ (fs fs' fs'' : FsImpl) (parent id : Nat) (name : String)
      (r : LookUpResult) (a : InodeAttributes),
      checkInvariants fs →
      (lookUpInode fs parent name = .ok (fs', r) → checkInvariants fs') ∧
      (getInodeAttributes fs id = .ok (fs'', a) → checkInvariants fs'') := by
  intro fs fs' fs'' parent id name r a hinv
  constructor
  · intro h
    unfold lookUpInode at h
    cases hp : findInodeByID fs parent with
    | error e => rw [hp] at h; cases h
    | ok pin =>
      rw [hp] at h
      by_cases h1 : parent = cannedID_Root ∧ name = "foo"
      · rw [if_pos h1] at h
        cases hc : findInodeByID fs cannedID_Foo with
        | error e => simp only [hc] at h; cases h
        | ok cin =>
          simp only [hc] at h
          cases h
          exact checkInvariants_incLookupCount fs cannedID_Foo hinv
      · rw [if_neg h1] at h
        by_cases h2 : parent = cannedID_Root ∧ name = "bar"
        · rw [if_pos h2] at h
          cases hc : findInodeByID fs cannedID_Bar with
          | error e => simp only [hc] at h; cases h
          | ok cin =>
            simp only [hc] at h
            cases h
            exact checkInvariants_incLookupCount fs cannedID_Bar hinv
        · rw [if_neg h2] at h
          cases h
          exact hinv
  · intro h
    unfold getInodeAttributes at h
    cases hp : findInodeByID fs id with
    | error e => rw [hp] at h; cases h
    | ok i =>
      rw [hp] at h
      cases h
      exact hinv

theorem forgetfs_c10_witness :
    checkInvariants fsEx ∧
    (∃ fs' r, lookUpInode fsEx 1 "foo" = .ok (fs', r) ∧ checkInvariants fs') ∧
    (∃ fs'' a, getInodeAttributes fsEx 2 = .ok (fs'', a) ∧
      checkInvariants fs'') := by
  refine ⟨by decide, ⟨_, _, rfl, ?_⟩, ⟨_, _, rfl, ?_⟩⟩
  · exact (forgetfs_c10_invariants_preserved fsEx _ fsEx 1 2 "foo" _
      { nlink := 0, mode := 0 } (by decide)).1 rfl
  · exact (forgetfs_c10_invariants_preserved fsEx fsEx _ 1 2 "foo"
      .enoent _ (by decide)).2 rfl

end ForgetFS

namespace Fuse

theorem fuse_c4_witness :
    beginOp s0 opForget 12 = .ok (.parent, s0) ∧
      finishOp s0 opForget 12 = .ok s0 :=
  fuse_c4_forget_exemption s0 12

theorem fuse_c6_witness :
    ((∃ e, recordCancelFunc s0 4 0 = .error e) ↔
      (lookupCF 4 s0.cancelFuncs).isSome = true) ∧
    ((∃ e, finishOp s0 opLookup 4 = .error e) ↔
      (opLookup ≠ opForget ∧ lookupCF 4 s0.cancelFuncs = none)) :=
  fuse_c6_panic_conditions s0 opLookup 4 0

theorem fuse_c9_witness :
    sendReply s0 opLookup 7 opInfoEx 1 [] none none =
      sendReply s0 opLookup 7 opInfoEx 2 [] none none :=
  fuse_c9_fuseID_independent s0 opLookup 7 opInfoEx 1 2 [] none none

end Fuse
